import Mathlib

/-!
Shallow embedding of `gitlabserver.go` (package `gitlabserver`): the
concurrent paginated project fetch (`Projects`), the sequential cursor
fetch (`Groups`), the count operations (`ProjectCount`, `GroupCount`,
`UserCount`), the hierarchy utilities (`TopLevelGroups`, `ParentGroup`),
`GetLatestCommit` and `ProjectExists`.

Go strings are modelled as `List Char` (`Str`), Go `strings.Split` as a
fuel-based scanner `stringsSplit`, Go slice/pointer index faults and nil
dereferences as `Option` (`none` = run-time fault), and the external
GitLab client as an explicit parameter supplying each call's outcome.
-/

namespace Gitlab

/-- Go strings, modelled as character lists so that all operations reduce. -/
abbrev Str := List Char

/-- `const ITEMS_PER_PAGE = 100` from the source. -/
def ITEMS_PER_PAGE : Nat := 100

/-- Scanner for Go `strings.Split` with non-empty separator `sep`:
`acc` holds the current field reversed; on a separator match the field is
emitted and the separator skipped; the fuel (initialised to the string's
length, consumed one character per step) makes the recursion structural. -/
def splitAux (sep : Str) : Nat → Str → Str → List Str
  | 0, s, acc => [acc.reverse ++ s]
  | fuel + 1, s, acc =>
    match s with
    | [] => [acc.reverse]
    | c :: rest =>
      if sep.isPrefixOf (c :: rest) then
        acc.reverse :: splitAux sep fuel (List.drop sep.length (c :: rest)) []
      else
        splitAux sep fuel rest (c :: acc)

/-- Go `strings.Split(s, sep)`: splits `s` around every non-overlapping
occurrence of `sep`, scanning left to right; with empty `sep` it splits
after every character (and `Split("", "")` is empty). -/
def stringsSplit (s sep : Str) : List Str :=
  if sep.isEmpty then s.map (fun c => [c])
  else splitAux sep s.length s []

/-- Outcome of one `g.client.Projects.ListProjects(opt)` call, as seen by a
per-page goroutine of `Projects`: the returned project slice `items`, the
`*Response` pointer (`none` = nil) and the error (`none` = nil). -/
structure PageResult (Item Resp : Type) where
  items : List Item
  resp : Option Resp
  err : Option String

/-- Body of the per-page goroutine of `Projects` (source lines 343-362):
on a non-nil error it formats the message, dereferencing `resp.Status`; when
`resp` is nil that dereference faults (`none`); otherwise the goroutine
appends `items` to the shared slice under the mutex. -/
def pageTask {Item Resp : Type} (r : PageResult Item Resp) : Option (List Item) :=
  match r.err with
  | some _ => r.resp.map (fun _ => r.items)
  | none => some r.items

/-- The fan-in of `Projects`: the shared slice after every per-page goroutine
has appended, where `order` is the order in which the goroutines reached the
mutex (scheduler-dependent). `none` = some goroutine faulted. -/
def ProjectsRun {Item Resp : Type} (results : Nat → PageResult Item Resp) :
    List Nat → Option (List Item)
  | [] => some []
  | p :: rest =>
    match pageTask (results p), ProjectsRun results rest with
    | some items, some acc => some (items ++ acc)
    | _, _ => none

/-- `Projects` (source lines 323-369) after a successful count: spawns one
goroutine per page, waits on the `WaitGroup`, and returns the shared slice
together with a nil error (line 368 returns `projects, nil` unconditionally). -/
def Projects {Item Resp : Type} (results : Nat → PageResult Item Resp)
    (order : List Nat) : Option (List Item × Option String) :=
  (ProjectsRun results order).map (fun items => (items, none))

/-- `pagesToCheck := int(math.Ceil(float64(projectCount) / ITEMS_PER_PAGE))`
(source line 332), embedded as the exact natural ceiling division; the float64
computation is exact for every count below 2^53. -/
def pagesToCheck (projectCount : Nat) : Nat :=
  (projectCount + ITEMS_PER_PAGE - 1) / ITEMS_PER_PAGE

/-- The page indices the loop `for page := 1; page < pagesToCheck+1; page++`
(source line 340) launches goroutines for: `[1, ..., pages]`. -/
def pageList (pages : Nat) : List Nat :=
  List.range' 1 pages

/-- The `for` loop of `Groups` (source lines 387-398): call the group
fetcher, abort returning the error on failure, append the page's items,
stop when `resp.NextPage == 0`, else continue at `resp.NextPage`. The fuel
makes the loop structural; `none` = the loop has not terminated within the
given fuel. -/
def groupsLoop {Item E : Type} (fetcher : Nat → Except E (List Item × Nat)) :
    Nat → Nat → List Item → Option (Except E (List Item))
  | 0, _, _ => none
  | fuel + 1, page, groups =>
    match fetcher page with
    | .error e => some (.error e)
    | .ok (g, nextPage) =>
      if nextPage = 0 then some (.ok (groups ++ g))
      else groupsLoop fetcher fuel nextPage (groups ++ g)

/-- `Groups` (source lines 372-401) after a successful count: the cursor
loop started at page 1 with an empty accumulator. -/
def Groups {Item E : Type} (fetcher : Nat → Except E (List Item × Nat))
    (fuel : Nat) : Option (Except E (List Item)) :=
  groupsLoop fetcher fuel 1 []

/-- Loop body of `TopLevelGroups` (source lines 408-414): split the group's
`FullPath` on the host segment, take element 0 of that split (the part
BEFORE the first host occurrence, the whole path when the host does not
occur), split it on `"/"`, take element 0, and append it unless already
present (`slices.Contains`). Both indexings are at 0 on a split result,
which is never empty, so they cannot fault. -/
def topLevelStep (host : Str) (topLevelGroups : List Str)
    (fullPathField : Str) : List Str :=
  let fullPath := stringsSplit fullPathField host
  let topLevelGroup := stringsSplit (fullPath.headD []) ['/']
  if topLevelGroups.contains (topLevelGroup.headD []) then topLevelGroups
  else topLevelGroups ++ [topLevelGroup.headD []]

/-- `TopLevelGroups` (source lines 405-417): the loop over `groups` with an
initially empty accumulator. -/
def TopLevelGroups (groups : List Str) (host : Str) : List Str :=
  groups.foldl (topLevelStep host) []

/-- The component `TopLevelGroups` extracts from one full path: first
slash-separated component of the portion before the first host occurrence. -/
def topLevelComponent (host fullPathField : Str) : Str :=
  ((stringsSplit ((stringsSplit fullPathField host).headD []) ['/']).headD [])

/-- `ParentGroup` (source lines 420-425): split the project's `WebURL` on the
host segment, index the split at 1, split that on `"/"`, index at 1. Either
indexing can be out of range, which in Go is a run-time panic: modelled as
`none`. -/
def ParentGroup (webURL host : Str) : Option Str :=
  match (stringsSplit webURL host)[1]? with
  | none => none
  | some second => (stringsSplit second ['/'])[1]?

/-- The digit run of `strconv.Atoi`: `some` of the value when `ds` is a
non-empty all-digit string, `none` otherwise. -/
def parseDigits (ds : Str) : Option Nat :=
  if ds.isEmpty then none
  else if ds.all Char.isDigit then
    some (ds.foldl (fun acc c => acc * 10 + (c.toNat - '0'.toNat)) 0)
  else none

/-- Go `strconv.Atoi`: an optional sign followed by at least one digit;
anything else is a syntax error (`none`). Overflow of 64-bit int is not
modelled; no claim depends on it. -/
def atoi : Str → Option Int
  | [] => none
  | '+' :: rest => (parseDigits rest).map (fun n => (n : Int))
  | '-' :: rest => (parseDigits rest).map (fun n => -(n : Int))
  | s => (parseDigits s).map (fun n => (n : Int))

/-- The two error classes of the count operations: a failed request
(propagated) and a non-numeric `X-Total` value (`strconv.Atoi`'s error). -/
inductive CountError (E : Type) where
  | requestFailed (cause : E)
  | invalidSyntax (value : Str)
deriving DecidableEq

/-- Shared body of `ProjectCount` / `GroupCount` / `UserCount` (source lines
255-320), as a function of the request outcome (the response modelled by its
header map): a failed request propagates its error; otherwise the count is
`strconv.Atoi(res.Header["X-Total"][0])` — Go map indexing on a missing key
yields the nil slice, so `[0]` panics (`none`); a non-numeric value makes
`Atoi` return an error. The response body plays no part. -/
def resourceCount {E : Type} (call : Except E (List (Str × List Str))) :
    Option (Except (CountError E) Int) :=
  match call with
  | .error e => some (.error (.requestFailed e))
  | .ok header =>
    match ((header.lookup "X-Total".toList).getD [])[0]? with
    | none => none
    | some v =>
      match atoi v with
      | none => some (.error (.invalidSyntax v))
      | some n => some (.ok n)

/-- `ProjectCount` (source lines 255-274). -/
def ProjectCount {E : Type} (call : Except E (List (Str × List Str))) :
    Option (Except (CountError E) Int) :=
  resourceCount call

/-- `GroupCount` (source lines 278-297). -/
def GroupCount {E : Type} (call : Except E (List (Str × List Str))) :
    Option (Except (CountError E) Int) :=
  resourceCount call

/-- `UserCount` (source lines 301-320). -/
def UserCount {E : Type} (call : Except E (List (Str × List Str))) :
    Option (Except (CountError E) Int) :=
  resourceCount call

/-- The three distinct error values `GetLatestCommit` can return (source
lines 428-444): the propagated request error, the
`"status code %d not expected, expecting 200"` error, and the
`"this repo has no commits"` error. -/
inductive CommitError (E : Type) where
  | requestFailed (cause : E)
  | unexpectedStatus (code : Int)
  | noCommits
deriving DecidableEq

/-- `GetLatestCommit` (source lines 428-444) as a function of the
`ListCommits` outcome (commit IDs and the response status code): propagate a
request error; a status other than 200 yields the unexpected-status error;
an empty commit list yields the no-commits error; otherwise the first
commit's ID is returned. -/
def GetLatestCommit {E : Type} (call : Except E (List String × Int)) :
    Except (CommitError E) String :=
  match call with
  | .error e => .error (.requestFailed e)
  | .ok (commits, statusCode) =>
    if statusCode ≠ 200 then .error (.unexpectedStatus statusCode)
    else
      match commits with
      | [] => .error .noCommits
      | c :: _ => .ok c

/-- The `for` loop of `ProjectExists` (source lines 467-473): return false
on the first candidate whose name differs from `projectName`, true when the
loop completes. -/
def projectsLoop (projectName : String) : List String → Bool
  | [] => true
  | gitlabProject :: rest =>
    if projectName ≠ gitlabProject then false
    else projectsLoop projectName rest

/-- `ProjectExists` (source lines 447-476) as a function of the
`ListGroupProjects` outcome (the candidate names): on a request error,
`(false, the error)`; on an empty candidate list, `(false, nil)`; otherwise
the loop's verdict with a nil error. -/
def ProjectExists {E : Type} (projectName : String)
    (call : Except E (List String)) : Bool × Option E :=
  match call with
  | .error e => (false, some e)
  | .ok gitlabProjects =>
    if gitlabProjects.length = 0 then (false, none)
    else (projectsLoop projectName gitlabProjects, none)

/-! Helper lemmas shared by the claim theorems. -/

/-- A page goroutine whose fetch succeeded appends its items. -/
theorem pageTask_of_err_none {Item Resp : Type} (r : PageResult Item Resp)
    (h : r.err = none) : pageTask r = some r.items := by
  simp [pageTask, h]

/-- A page goroutine with a non-nil response completes and appends its
items, whether or not the fetch errored. -/
theorem pageTask_of_resp_isSome {Item Resp : Type} (r : PageResult Item Resp)
    (h : r.resp.isSome) : pageTask r = some r.items := by
  rcases hr : r.resp with _ | v
  · rw [hr] at h; simp at h
  · cases he : r.err <;> simp [pageTask, he, hr]

/-- When every page in `order` fetched without error, the shared slice is
the concatenation, in completion order, of the pages' items. -/
theorem projectsRun_all_ok {Item Resp : Type}
    (results : Nat → PageResult Item Resp) :
    ∀ order : List Nat, (∀ p ∈ order, (results p).err = none) →
      ProjectsRun results order =
        some (order.flatMap fun p => (results p).items) := by
  intro order
  induction order with
  | nil => intro _; rfl
  | cons p rest ih =>
    intro h
    have hp := pageTask_of_err_none (results p) (h p (by simp))
    have hrest := ih (fun q hq => h q (by simp [hq]))
    simp [ProjectsRun, hp, hrest]

/-- When every errored page carried a non-nil response and empty items
(the client contract), the shared slice is the concatenation of the
succeeding pages' items, in completion order. -/
theorem projectsRun_isolated {Item Resp : Type}
    (results : Nat → PageResult Item Resp) :
    ∀ order : List Nat,
      (∀ p ∈ order, (results p).err.isSome →
        (results p).resp.isSome ∧ (results p).items = []) →
      ProjectsRun results order =
        some ((order.filter fun p => (results p).err.isNone).flatMap
          fun p => (results p).items) := by
  intro order
  induction order with
  | nil => intro _; rfl
  | cons p rest ih =>
    intro h
    have hrest := ih (fun q hq => h q (by simp [hq]))
    rcases he : (results p).err with _ | e
    · have hp := pageTask_of_err_none (results p) he
      simp [ProjectsRun, hp, hrest, List.filter_cons, he]
    · obtain ⟨hresp, hitems⟩ := h p (by simp) (by simp [he])
      have hp := pageTask_of_resp_isSome (results p) hresp
      simp [ProjectsRun, hp, hrest, List.filter_cons, he, hitems]

/-- If any goroutine in the run faults, the whole run faults. -/
theorem projectsRun_fault {Item Resp : Type}
    (results : Nat → PageResult Item Resp) :
    ∀ (order : List Nat) (p : Nat), p ∈ order →
      pageTask (results p) = none → ProjectsRun results order = none := by
  intro order
  induction order with
  | nil => intro p hp; simp at hp
  | cons q rest ih =>
    intro p hp hnone
    rcases List.mem_cons.mp hp with hq | hrest
    · subst hq; simp [ProjectsRun, hnone]
    · have := ih p hrest hnone
      cases htask : pageTask (results q) <;> simp [ProjectsRun, htask, this]

/-- The Go expression `int(math.Ceil(float64(n) / 100))` agrees with the
exact rational ceiling. -/
theorem pagesToCheck_eq_rat_ceil (n : Nat) :
    pagesToCheck n = ⌈(n : ℚ) / (ITEMS_PER_PAGE : ℚ)⌉₊ := by
  rcases Nat.eq_zero_or_pos n with h0 | hpos
  · subst h0; simp [pagesToCheck, ITEMS_PER_PAGE]
  · have hq : 1 ≤ (n + ITEMS_PER_PAGE - 1) / ITEMS_PER_PAGE := by
      apply (Nat.one_le_div_iff (by norm_num [ITEMS_PER_PAGE])).mpr
      simp only [ITEMS_PER_PAGE]
      omega
    have hm : pagesToCheck n ≠ 0 := by
      simp only [pagesToCheck]
      omega
    symm
    rw [Nat.ceil_eq_iff hm]
    have hdm := Nat.div_add_mod (n + ITEMS_PER_PAGE - 1) ITEMS_PER_PAGE
    have hmod : (n + ITEMS_PER_PAGE - 1) % ITEMS_PER_PAGE < ITEMS_PER_PAGE :=
      Nat.mod_lt _ (by norm_num [ITEMS_PER_PAGE])
    simp only [pagesToCheck, ITEMS_PER_PAGE] at hdm hmod hq ⊢
    have hc : (0 : ℚ) < ((100 : ℕ) : ℚ) := by norm_num
    constructor
    · rw [lt_div_iff₀ hc]
      have hnat : ((n + 100 - 1) / 100 - 1) * 100 < n := by omega
      exact_mod_cast hnat
    · rw [div_le_iff₀ hc]
      have hnat : n ≤ ((n + 100 - 1) / 100) * 100 := by omega
      exact_mod_cast hnat

/-- One step of `TopLevelGroups` written through `topLevelComponent`. -/
theorem topLevelStep_eq (host : Str) (acc : List Str) (g : Str) :
    topLevelStep host acc g =
      if acc.contains (topLevelComponent host g) then acc
      else acc ++ [topLevelComponent host g] := rfl

/-- The `TopLevelGroups` loop never introduces a duplicate. -/
theorem topLevelGroups_foldl_nodup (host : Str) :
    ∀ (gs acc : List Str), acc.Nodup →
      (gs.foldl (topLevelStep host) acc).Nodup := by
  intro gs
  induction gs with
  | nil => intro acc h; simpa
  | cons g rest ih =>
    intro acc h
    rw [List.foldl_cons]
    apply ih
    rw [topLevelStep_eq]
    by_cases hc : acc.contains (topLevelComponent host g)
    · rw [if_pos hc]; exact h
    · rw [if_neg hc]
      have hmem : topLevelComponent host g ∉ acc := by simpa using hc
      simp [List.nodup_append, h, hmem]

/-- Membership in the `TopLevelGroups` loop result: exactly the elements of
the accumulator plus the extracted component of some processed path. -/
theorem topLevelGroups_foldl_mem (host : Str) :
    ∀ (gs acc : List Str) (x : Str),
      (x ∈ gs.foldl (topLevelStep host) acc ↔
        x ∈ acc ∨ ∃ g ∈ gs, x = topLevelComponent host g) := by
  intro gs
  induction gs with
  | nil => intro acc x; simp
  | cons g rest ih =>
    intro acc x
    rw [List.foldl_cons, ih, topLevelStep_eq]
    by_cases hc : acc.contains (topLevelComponent host g)
    · have hmem : topLevelComponent host g ∈ acc := by simpa using hc
      rw [if_pos hc]
      constructor
      · rintro (h | ⟨g', hg', hx⟩)
        · exact Or.inl h
        · exact Or.inr ⟨g', by simp [hg'], hx⟩
      · rintro (h | ⟨g', hg', hx⟩)
        · exact Or.inl h
        · rcases List.mem_cons.mp hg' with rfl | hg'
          · exact Or.inl (hx ▸ hmem)
          · exact Or.inr ⟨g', hg', hx⟩
    · rw [if_neg hc]
      constructor
      · rintro (h | ⟨g', hg', hx⟩)
        · rcases List.mem_append.mp h with h | h
          · exact Or.inl h
          · exact Or.inr ⟨g, by simp, List.mem_singleton.mp h⟩
        · exact Or.inr ⟨g', by simp [hg'], hx⟩
      · rintro (h | ⟨g', hg', hx⟩)
        · exact Or.inl (List.mem_append.mpr (Or.inl h))
        · rcases List.mem_cons.mp hg' with rfl | hg'
          · exact Or.inl (List.mem_append.mpr (Or.inr (by simp [hx])))
          · exact Or.inr ⟨g', hg', hx⟩

/-- The `ProjectExists` loop returns true exactly when every candidate name
equals the wanted name. -/
theorem projectsLoop_eq_true_iff (projectName : String) :
    ∀ candidates : List String,
      (projectsLoop projectName candidates = true ↔
        ∀ c ∈ candidates, c = projectName) := by
  intro candidates
  induction candidates with
  | nil => simp [projectsLoop]
  | cons c rest ih =>
    rw [List.forall_mem_cons]
    by_cases hc : projectName = c
    · subst hc
      simp [projectsLoop, ih]
    · simp [projectsLoop, hc, Ne.symm hc]

/-! The claim theorems. -/

/-- C1: for every total project count, when every page fetch succeeds,
`Projects` returns, with a nil error, a collection whose size equals the sum
of the per-page item counts and whose members, as a multiset, are exactly
the union of all pages' items — for every completion order of the per-page
goroutines. -/
theorem projects_success_size_and_membership {Item Resp : Type}
    (totalCount : Nat) (results : Nat → PageResult Item Resp)
    (order : List Nat)
    (hperm : order.Perm (pageList (pagesToCheck totalCount)))
    (hok : ∀ p, (results p).err = none) :
    ∃ items : List Item,
      Projects results order = some (items, none) ∧
      items.length = ((pageList (pagesToCheck totalCount)).map
        (fun p => (results p).items.length)).sum ∧
      items.Perm ((pageList (pagesToCheck totalCount)).flatMap
        (fun p => (results p).items)) := by
  have hjoin : (order.flatMap fun p => (results p).items).Perm
      ((pageList (pagesToCheck totalCount)).flatMap
        fun p => (results p).items) :=
    hperm.flatMap_right _
  refine ⟨order.flatMap fun p => (results p).items, ?_, ?_, hjoin⟩
  · rw [Projects, projectsRun_all_ok results order (fun p _ => hok p)]
    rfl
  · rw [hjoin.length_eq, List.length_flatMap]
    rfl

/-- Witness for C1 at `totalCount = 150` (two pages), page `p` returning the
single item `p`, the second page's goroutine appending first. -/
theorem projects_success_size_and_membership_witness :
    ∃ items : List Nat,
      Projects (fun p => (⟨[p], some (), none⟩ : PageResult Nat Unit)) [2, 1] =
        some (items, none) ∧
      items.length = 2 ∧ items.Perm [1, 2] := by
  obtain ⟨items, h1, h2, h3⟩ :=
    projects_success_size_and_membership 150
      (fun p => (⟨[p], some (), none⟩ : PageResult Nat Unit)) [2, 1]
      (by decide) (fun p => rfl)
  refine ⟨items, h1, ?_, ?_⟩
  · rw [h2]; decide
  · have he : ((pageList (pagesToCheck 150)).flatMap
        (fun p => ((⟨[p], some (), none⟩ : PageResult Nat Unit)).items)) =
        [1, 2] := by decide
    exact he ▸ h3

/-- C2: when one or more pages fail (and, per the client contract, an errored
fetch returns a non-nil response and no items), `Projects` still returns a
nil error, the failed pages' items are absent, and the succeeding pages'
items are all present: the result is exactly the concatenation of the
succeeding pages' items in completion order. -/
theorem projects_page_failures_swallowed {Item Resp : Type}
    (totalCount : Nat) (results : Nat → PageResult Item Resp)
    (order : List Nat)
    (_hperm : order.Perm (pageList (pagesToCheck totalCount)))
    (_hfail : ∃ p ∈ order, (results p).err.isSome)
    (hiso : ∀ p ∈ order, (results p).err.isSome →
      (results p).resp.isSome ∧ (results p).items = []) :
    Projects results order =
      some ((order.filter (fun p => (results p).err.isNone)).flatMap
        (fun p => (results p).items), none) := by
  rw [Projects, projectsRun_isolated results order hiso]
  rfl

/-- Witness for C2: page 1 fails, page 2 returns `[7]`; the result is
`[7]` with a nil error. -/
theorem projects_page_failures_swallowed_witness :
    Projects (fun p => if p = 1 then (⟨[], some (), some "boom"⟩ :
      PageResult Nat Unit) else ⟨[7], some (), none⟩) [2, 1] =
      some ([7], none) := by
  have h := projects_page_failures_swallowed 150
    (fun p => if p = 1 then (⟨[], some (), some "boom"⟩ : PageResult Nat Unit)
      else ⟨[7], some (), none⟩) [2, 1]
    (by decide) (by decide) (by decide)
  rw [h]
  rfl

/-- C3: the page plan is the ceiling of the total count by the fixed page
size 100; a zero total yields zero pages, no goroutines, and an immediately
returned empty collection with nil error. -/
theorem plan_pages_eq_ceil {Item Resp : Type}
    (results : Nat → PageResult Item Resp) (totalCount : Nat) :
    pagesToCheck totalCount = ⌈(totalCount : ℚ) / (ITEMS_PER_PAGE : ℚ)⌉₊ ∧
    0 < ITEMS_PER_PAGE ∧
    (pageList (pagesToCheck totalCount)).length = pagesToCheck totalCount ∧
    pagesToCheck 0 = 0 ∧
    pageList (pagesToCheck 0) = [] ∧
    Projects results (pageList (pagesToCheck 0)) = some ([], none) :=
  ⟨pagesToCheck_eq_rat_ceil totalCount, by norm_num [ITEMS_PER_PAGE],
    by simp [pageList], rfl, rfl, rfl⟩

/-- Stopping step of the `Groups` cursor loop: a page with next-page index 0
terminates the loop, returning the accumulator plus this page's items. -/
theorem groupsLoop_stop {Item E : Type}
    (fetcher : Nat → Except E (List Item × Nat)) (fuel page : Nat)
    (acc items : List Item) (h : fetcher page = .ok (items, 0)) :
    groupsLoop fetcher (fuel + 1) page acc = some (.ok (acc ++ items)) := by
  simp [groupsLoop, h]

/-- Continuing step of the `Groups` cursor loop: a page with a nonzero
next-page index appends its items and continues at that index. -/
theorem groupsLoop_continue {Item E : Type}
    (fetcher : Nat → Except E (List Item × Nat)) (fuel page next : Nat)
    (acc items : List Item) (h : fetcher page = .ok (items, next))
    (hne : next ≠ 0) :
    groupsLoop fetcher (fuel + 1) page acc =
      groupsLoop fetcher fuel next (acc ++ items) := by
  simp [groupsLoop, h, hne]

/-- C4: the sequential cursor aggregator `Groups` starts at page 1 with an
empty accumulator, aborts immediately surfacing the error of a failed page,
terminates returning the accumulated items exactly when the next-page index
is 0, otherwise appends and continues at the returned index; on the chain
1→2→3→0 it returns all three pages' items in order. -/
theorem groups_sequential_cursor {Item E : Type}
    (fetcher : Nat → Except E (List Item × Nat)) :
    (∀ fuel : Nat, Groups fetcher fuel = groupsLoop fetcher fuel 1 []) ∧
    (∀ (fuel page : Nat) (acc : List Item) (e : E),
      fetcher page = .error e →
      groupsLoop fetcher (fuel + 1) page acc = some (.error e)) ∧
    (∀ (fuel page : Nat) (acc items : List Item),
      fetcher page = .ok (items, 0) →
      groupsLoop fetcher (fuel + 1) page acc = some (.ok (acc ++ items))) ∧
    (∀ (fuel page next : Nat) (acc items : List Item),
      fetcher page = .ok (items, next) → next ≠ 0 →
      groupsLoop fetcher (fuel + 1) page acc =
        groupsLoop fetcher fuel next (acc ++ items)) ∧
    (∀ l1 l2 l3 : List Item,
      fetcher 1 = .ok (l1, 2) → fetcher 2 = .ok (l2, 3) →
      fetcher 3 = .ok (l3, 0) →
      Groups fetcher 3 = some (.ok (l1 ++ l2 ++ l3))) := by
  refine ⟨fun _ => rfl, ?_, groupsLoop_stop fetcher, groupsLoop_continue fetcher, ?_⟩
  · intro fuel page acc e h
    simp [groupsLoop, h]
  · intro l1 l2 l3 h1 h2 h3
    calc Groups fetcher 3 = groupsLoop fetcher (2 + 1) 1 [] := rfl
      _ = groupsLoop fetcher (1 + 1) 2 ([] ++ l1) :=
        groupsLoop_continue fetcher 2 1 2 [] l1 h1 (by decide)
      _ = groupsLoop fetcher (0 + 1) 3 (([] ++ l1) ++ l2) :=
        groupsLoop_continue fetcher 1 2 3 ([] ++ l1) l2 h2 (by decide)
      _ = some (.ok ((([] ++ l1) ++ l2) ++ l3)) :=
        groupsLoop_stop fetcher 0 3 (([] ++ l1) ++ l2) l3 h3
      _ = some (.ok (l1 ++ l2 ++ l3)) := by simp

/-- Witness for C4 on the concrete chain 1→2→3→0. -/
theorem groups_sequential_cursor_witness :
    Groups (fun p => if p = 1 then .ok (["g1"], 2) else
      if p = 2 then .ok (["g2"], 3) else .ok (["g3"], 0) :
        Nat → Except String (List String × Nat)) 3 =
      some (.ok ["g1", "g2", "g3"]) := by
  have h := (groups_sequential_cursor (fun p => if p = 1 then .ok (["g1"], 2)
    else if p = 2 then .ok (["g2"], 3) else .ok (["g3"], 0) :
      Nat → Except String (List String × Nat))).2.2.2.2
    ["g1"] ["g2"] ["g3"] rfl rfl rfl
  simpa using h

/-- C5: `ParentGroup` on `"https://host/GroupA/project1"` with host segment
`"host"` returns `"GroupA"` (the path component at index 1 after the host);
but on a URL with fewer than two path segments after the host it faults with
an out-of-range index (`none`) instead of surfacing an explicit MalformedURL
error — the claim's error clause names the intended behaviour, not the
code's. -/
theorem parentGroup_extracts_but_faults_on_short_url :
    ParentGroup "https://host/GroupA/project1".toList "host".toList =
      some "GroupA".toList ∧
    ParentGroup "https://host".toList "host".toList = none :=
  ⟨by decide, by decide⟩

/-- C6 counterexample: on the claim's own inputs — full paths
`["host/A/x", "host/A/y", "host/B/z"]` with host segment `"host"` — the code
does not yield `["A", "B"]` (it yields `[""]`, because it takes the split
element at index 0, the part before the host occurrence). -/
theorem topLevelGroups_spec_counterexample :
    TopLevelGroups ["host/A/x".toList, "host/A/y".toList, "host/B/z".toList]
      "host".toList ≠ ["A".toList, "B".toList] := by decide

/-- C6 amended: `TopLevelGroups` takes, for each group, the first
slash-separated component of the portion of its full path BEFORE the first
occurrence of the host segment (the whole path when the host segment does
not occur), and deduplicates preserving first-seen order; the claim's
example (host-prefixed paths) therefore yields `[""]`, while host-free
full paths `["A/x", "A/y", "B/z"]` yield `["A", "B"]` in first-seen
order. -/
theorem topLevelGroups_before_host_component_dedup :
    (∀ (gs : List Str) (host : Str), (TopLevelGroups gs host).Nodup) ∧
    (∀ (gs : List Str) (host : Str) (x : Str),
      x ∈ TopLevelGroups gs host ↔ ∃ g ∈ gs, x = topLevelComponent host g) ∧
    TopLevelGroups ["host/A/x".toList, "host/A/y".toList, "host/B/z".toList]
      "host".toList = [[]] ∧
    TopLevelGroups ["A/x".toList, "A/y".toList, "B/z".toList] "host".toList =
      ["A".toList, "B".toList] := by
  refine ⟨?_, ?_, by decide, by decide⟩
  · intro gs host
    exact topLevelGroups_foldl_nodup host gs [] (by simp)
  · intro gs host x
    simpa [TopLevelGroups] using topLevelGroups_foldl_mem host gs [] x

/-- C7: the count operations read the total from the `X-Total` response
header (the response body does not enter the model); a non-numeric value
makes them return the `Atoi` error and a failed request propagates its
error — but a MISSING `X-Total` header makes `res.Header["X-Total"][0]`
index the nil slice, a run-time fault (`none`), not a returned error: the
claim's missing-header clause names the intended behaviour, not the
code's. -/
theorem counts_read_header_but_fault_when_missing :
    ProjectCount (.ok [("X-Total".toList, ["42".toList])] :
      Except String (List (Str × List Str))) = some (.ok 42) ∧
    GroupCount (.ok [("X-Total".toList, ["7".toList])] :
      Except String (List (Str × List Str))) = some (.ok 7) ∧
    UserCount (.ok [("X-Total".toList, ["0".toList])] :
      Except String (List (Str × List Str))) = some (.ok 0) ∧
    resourceCount (.ok [("X-Total".toList, ["abc".toList])] :
      Except String (List (Str × List Str))) =
      some (.error (.invalidSyntax "abc".toList)) ∧
    resourceCount (.ok [] : Except String (List (Str × List Str))) = none ∧
    resourceCount (.ok [("Content-Type".toList, ["json".toList])] :
      Except String (List (Str × List Str))) = none ∧
    resourceCount (.error "network down" :
      Except String (List (Str × List Str))) =
      some (.error (.requestFailed "network down")) :=
  ⟨rfl, rfl, rfl, rfl, rfl, rfl, rfl⟩

/-- C8: `GetLatestCommit` returns the first commit's ID on a 200 response
with a non-empty commit list; a 200 response with an empty list yields the
distinguished no-commits error; a non-200 status yields the error carrying
that status code; a failed request propagates its cause — and these cases
are exhaustive. -/
theorem getLatestCommit_cases {E : Type} (e : E) (commits : List String)
    (statusCode : Int) (c : String) (cs : List String)
    (hstatus : statusCode ≠ 200) :
    GetLatestCommit (Except.error e : Except E (List String × Int)) =
      .error (.requestFailed e) ∧
    GetLatestCommit (.ok (commits, statusCode) :
      Except E (List String × Int)) = .error (.unexpectedStatus statusCode) ∧
    GetLatestCommit (.ok (([] : List String), (200 : Int)) :
      Except E (List String × Int)) = .error .noCommits ∧
    GetLatestCommit (.ok (c :: cs, (200 : Int)) :
      Except E (List String × Int)) = .ok c := by
  refine ⟨rfl, ?_, rfl, rfl⟩
  simp [GetLatestCommit, hstatus]

/-- Witness for C8 at a failed request, a 404 status, an empty repository
and a one-commit repository. -/
theorem getLatestCommit_cases_witness :
    GetLatestCommit (Except.error "down" : Except String (List String × Int)) =
      .error (.requestFailed "down") ∧
    GetLatestCommit (.ok (["abc"], 404) : Except String (List String × Int)) =
      .error (.unexpectedStatus 404) ∧
    GetLatestCommit (.ok (([] : List String), (200 : Int)) :
      Except String (List String × Int)) = .error .noCommits ∧
    GetLatestCommit (.ok (["abc"], (200 : Int)) :
      Except String (List String × Int)) = .ok "abc" := by
  have h := getLatestCommit_cases "down" ["abc"] 404 "abc" [] (by decide)
  exact ⟨h.1, h.2.1, h.2.2.1, h.2.2.2⟩

/-- C9: the error branch of a `Projects` page goroutine dereferences
`resp.Status` unconditionally, so with a non-nil error and a nil response
the goroutine faults (`none`) — and then the whole run faults — whereas
with a non-nil response the goroutine completes and appends its items. -/
theorem projects_error_branch_needs_resp {Item Resp : Type}
    (results : Nat → PageResult Item Resp) (order : List Nat) (p : Nat)
    (hmem : p ∈ order) (herr : (results p).err.isSome)
    (hresp : (results p).resp = none) :
    pageTask (results p) = none ∧
    Projects results order = none ∧
    (∀ r : PageResult Item Resp, r.resp.isSome → pageTask r = some r.items) := by
  have htask : pageTask (results p) = none := by
    rcases he : (results p).err with _ | e
    · rw [he] at herr; simp at herr
    · simp [pageTask, he, hresp]
  refine ⟨htask, ?_, fun r h => pageTask_of_resp_isSome r h⟩
  rw [Projects, projectsRun_fault results order p hmem htask]
  rfl

/-- Witness for C9: a single page whose fetch errors with a nil response. -/
theorem projects_error_branch_needs_resp_witness :
    pageTask ((fun _ : Nat => (⟨[], none, some "boom"⟩ :
      PageResult Nat Unit)) 1) = none ∧
    Projects (fun _ : Nat => (⟨[], none, some "boom"⟩ :
      PageResult Nat Unit)) [1] = none ∧
    (∀ r : PageResult Nat Unit, r.resp.isSome → pageTask r = some r.items) :=
  projects_error_branch_needs_resp
    (fun _ : Nat => (⟨[], none, some "boom"⟩ : PageResult Nat Unit))
    [1] 1 (by decide) (by decide) rfl

/-- C10: `ProjectExists` on a successful search returns true exactly when
the candidate list is non-empty and every candidate's name equals the wanted
name; the error slot is nil; in particular a non-empty list with any
differing candidate gives false even when another candidate matches
exactly, and the empty list gives `(false, nil)`. -/
theorem projectExists_all_names_match {E : Type} (projectName : String)
    (candidates : List String) :
    ((ProjectExists projectName
        (.ok candidates : Except E (List String))).1 = true ↔
      candidates ≠ [] ∧ ∀ c ∈ candidates, c = projectName) ∧
    (ProjectExists projectName
      (.ok candidates : Except E (List String))).2 = none ∧
    ProjectExists "p" (.ok ["q", "p"] : Except Unit (List String)) =
      (false, none) ∧
    ProjectExists "p" (.ok ([] : List String) : Except Unit (List String)) =
      (false, none) := by
  refine ⟨?_, ?_, by decide, rfl⟩
  · cases candidates with
    | nil => simp [ProjectExists]
    | cons c rest =>
      have hne : ¬(rest.length + 1 = 0) := by omega
      rw [ProjectExists]
      simp only [List.length_cons]
      rw [if_neg hne]
      show projectsLoop projectName (c :: rest) = true ↔ _
      rw [projectsLoop_eq_true_iff projectName (c :: rest)]
      simp
  · cases candidates <;> simp [ProjectExists]

/-- Witness for C10: both candidates match exactly, so the result is
`(true, nil)`. -/
theorem projectExists_all_names_match_witness :
    (ProjectExists "p" (.ok ["p", "p"] :
      Except Unit (List String))).1 = true ∧
    (ProjectExists "p" (.ok ["p", "p"] :
      Except Unit (List String))).2 = none := by
  have h := projectExists_all_names_match (E := Unit) "p" ["p", "p"]
  exact ⟨h.1.mpr ⟨by decide, by decide⟩, h.2.1⟩

end Gitlab
